import Mathlib

/-!
# VILLASnode core: a shallow embedding with proofs

This file embeds, in Lean 4, the parts of the VILLASnode repository that the
verified claims are about:

* the CRC routine and the C37.118 synchrophasor codec
  (`src/lib/nodes/c37_118/parser.cpp`, `src/include/villas/nodes/c37_118/types.hpp`),
* the path receive/send machinery (`src/lib/path.c`),
* the generic doubly-linked list (`src/unnamed/part_000`),
* sample remapping (`mapping_update` in `src/unnamed/part_005`),
* path configuration parsing (`config_parse_path` in `src/unnamed/part_005`).

Machine integers are modelled as `Nat` with explicit truncation (`% 2 ^ w`)
where the C code truncates; C `float` fields are modelled by their 32-bit
patterns, which is exact for the byte-level round trips considered here
(the codec moves floats through `htonl`/`ntohl` on their bit patterns and
never does arithmetic on them).  Fallible code returns `Option`/`Except`.

Components of the repository whose implementation files are NOT part of the
source tree (the queue, pool and hook chain: only `path.c`, their caller, is
present) are modelled from the specification document, and are marked as such
in their doc comments.
-/

namespace VillasNode

/-! ## CRC (source: `parser::calculate_crc`, src/lib/nodes/c37_118/parser.cpp)

`Byte` is `Fin 256`: the C routines traffic in `unsigned char` buffers, so
every byte is below 256 by type. -/

/-- A byte of a frame buffer (`unsigned char` in the C source). -/
abbrev Byte := Fin 256

/-- One iteration of the loop body of `parser::calculate_crc`.  All local
variables are `uint16_t` in C, so every assignment truncates modulo `2 ^ 16`. -/
def crcByteCode (crc : Nat) (b : Byte) : Nat :=
  let temp := ((crc >>> 8) ^^^ b.val) % 65536
  let crc1 := (crc <<< 8) % 65536
  let quick := (temp ^^^ (temp >>> 4)) % 65536
  let crc2 := (crc1 ^^^ quick) % 65536
  let quick5 := (quick <<< 5) % 65536
  let crc3 := (crc2 ^^^ quick5) % 65536
  let quick12 := (quick5 <<< 7) % 65536
  (crc3 ^^^ quick12) % 65536

/-- `parser::calculate_crc`: CRC over a byte buffer, starting from `0xFFFF`. -/
def calculate_crc (frame : List Byte) : Nat :=
  frame.foldl crcByteCode 0xFFFF

/-- Reference single-bit step of CRC-CCITT-FALSE: shift the 16-bit register
left by one and, if the bit shifted out was set, xor in the polynomial
`0x1021`. -/
def crcStepBit (st : Nat) : Nat :=
  if st.testBit 15 then ((st <<< 1) ^^^ 0x1021) % 65536
  else (st <<< 1) % 65536

/-- Eight reference bit-steps. -/
def crcSteps8 (st : Nat) : Nat :=
  crcStepBit (crcStepBit (crcStepBit (crcStepBit
    (crcStepBit (crcStepBit (crcStepBit (crcStepBit st)))))))

/-- Reference byte-step of CRC-CCITT-FALSE (MSB first): xor the byte into the
upper half of the register, then run eight bit-steps. -/
def crcByteRef (st : Nat) (b : Byte) : Nat :=
  crcSteps8 (st ^^^ (b.val <<< 8))

/-- The CRC-CCITT-FALSE checksum of a byte list: initial value `0xFFFF`,
polynomial `0x1021`, MSB first, no final xor, no reflection.  This is the
textbook definition the spec refers to; the implementation `calculate_crc`
is proved equal to it below. -/
def crc_ccitt_false (frame : List Byte) : Nat :=
  frame.foldl crcByteRef 0xFFFF

/-- Left shift distributes over xor. -/
theorem shiftLeft_xor_distrib (a b n : Nat) :
    (a ^^^ b) <<< n = (a <<< n) ^^^ (b <<< n) := by
  apply Nat.eq_of_testBit_eq
  intro i
  simp only [Nat.testBit_shiftLeft, Nat.testBit_xor]
  by_cases h : i ≥ n <;> simp [h]

/-- Truncation modulo a power of two distributes over xor. -/
theorem mod_two_pow_xor_distrib (a b k : Nat) :
    (a ^^^ b) % 2 ^ k = (a % 2 ^ k) ^^^ (b % 2 ^ k) := by
  apply Nat.eq_of_testBit_eq
  intro i
  simp only [Nat.testBit_mod_two_pow, Nat.testBit_xor]
  by_cases h : i < k <;> simp [h]

theorem mod_65536_xor_distrib (a b : Nat) :
    (a ^^^ b) % 65536 = (a % 65536) ^^^ (b % 65536) := by
  have h : (65536 : Nat) = 2 ^ 16 := by norm_num
  rw [h]
  exact mod_two_pow_xor_distrib a b 16

theorem nat_xor_left_comm (a b c : Nat) : a ^^^ (b ^^^ c) = b ^^^ (a ^^^ c) := by
  rw [← Nat.xor_assoc, Nat.xor_comm a b, Nat.xor_assoc]

/-- The reference bit-step is linear over xor (GF(2) linearity). -/
theorem crcStepBit_xor (a b : Nat) :
    crcStepBit (a ^^^ b) = crcStepBit a ^^^ crcStepBit b := by
  unfold crcStepBit
  rw [Nat.testBit_xor]
  cases ha : a.testBit 15 <;> cases hb : b.testBit 15 <;>
    simp only [Bool.xor_false, Bool.xor_true, Bool.not_true, Bool.not_false,
      Bool.false_xor, Bool.true_xor, Bool.false_eq_true, if_true, if_false,
      ite_true, ite_false] <;>
    rw [shiftLeft_xor_distrib] <;>
    rw [← mod_65536_xor_distrib] <;>
    simp [Nat.xor_assoc, Nat.xor_comm, nat_xor_left_comm, Nat.xor_self,
      Nat.xor_zero, Nat.zero_xor]

/-- Eight bit-steps are linear over xor. -/
theorem crcSteps8_xor (a b : Nat) :
    crcSteps8 (a ^^^ b) = crcSteps8 a ^^^ crcSteps8 b := by
  simp only [crcSteps8, crcStepBit_xor]

/-- High/low decomposition of a 16-bit register as a xor. -/
theorem shiftRight_shiftLeft_xor_low (x : Nat) :
    ((x >>> 8) <<< 8) ^^^ (x % 256) = x := by
  apply Nat.eq_of_testBit_eq
  intro i
  have h256 : (256 : Nat) = 2 ^ 8 := by norm_num
  simp only [Nat.testBit_xor, Nat.testBit_shiftLeft, h256,
    Nat.testBit_mod_two_pow, Nat.testBit_shiftRight]
  by_cases h : i ≥ 8
  · have h2 : ¬ i < 8 := by omega
    have h3 : 8 + (i - 8) = i := by omega
    simp [h, h2, h3]
  · have h2 : i < 8 := by omega
    simp [h, h2]

set_option maxRecDepth 100000 in
/-- Eight bit-steps of a value below 256 just shift it into the upper byte
(the polynomial is never triggered): checked by enumeration. -/
theorem crcSteps8_low (lo : Nat) (h : lo < 256) :
    crcSteps8 lo = lo <<< 8 := by
  revert h
  revert lo
  decide

/-- The combined "quick" trick of the C loop body, as a function of the
(8-bit) folded byte `t`. -/
def crcQuick (t : Nat) : Nat :=
  let quick := (t ^^^ (t >>> 4)) % 65536
  let quick5 := (quick <<< 5) % 65536
  let quick12 := (quick5 <<< 7) % 65536
  (quick ^^^ quick5) ^^^ quick12

set_option maxRecDepth 100000 in
/-- The quick trick agrees with eight reference bit-steps on the upper byte:
checked by enumeration over the 256 possible folded bytes. -/
theorem crcQuick_eq_steps8 (t : Nat) (h : t < 256) :
    crcQuick t = crcSteps8 (t <<< 8) := by
  revert h
  revert t
  decide

theorem xor_lt_65536 {a b : Nat} (ha : a < 65536) (hb : b < 65536) :
    a ^^^ b < 65536 := by
  have h : (65536 : Nat) = 2 ^ 16 := by norm_num
  rw [h] at ha hb ⊢
  exact Nat.xor_lt_two_pow ha hb

/-- One loop iteration of `calculate_crc` equals the reference byte-step,
for a 16-bit register value. -/
theorem crcByteCode_eq_ref (crc : Nat) (b : Byte) (hcrc : crc < 65536) :
    crcByteCode crc b = crcByteRef crc b := by
  have hb : b.val < 256 := b.isLt
  have hhi : crc >>> 8 < 256 := by
    rw [Nat.shiftRight_eq_div_pow]
    omega
  have h8 : (2 : Nat) ^ 8 = 256 := by norm_num
  have hb2 : b.val < 2 ^ 8 := by rw [h8]; exact hb
  have hhi2 : crc >>> 8 < 2 ^ 8 := by rw [h8]; exact hhi
  have ht : (crc >>> 8) ^^^ b.val < 256 := by
    have h3 := Nat.xor_lt_two_pow hhi2 hb2
    rwa [h8] at h3
  set t := (crc >>> 8) ^^^ b.val with htdef
  have htemp : t % 65536 = t := Nat.mod_eq_of_lt (by omega)
  have hlo : crc % 256 < 256 := Nat.mod_lt _ (by norm_num)
  have hlo8 : (crc % 256) <<< 8 < 65536 := by
    rw [Nat.shiftLeft_eq]
    have : (2 : Nat) ^ 8 = 256 := by norm_num
    rw [this]
    omega
  have hcrc1 : (crc <<< 8) % 65536 = (crc % 256) <<< 8 := by
    rw [Nat.shiftLeft_eq, Nat.shiftLeft_eq]
    have h2 : (2 : Nat) ^ 8 = 256 := by norm_num
    rw [h2]
    have h65536 : (65536 : Nat) = 256 * 256 := by norm_num
    rw [h65536, Nat.mul_mod_mul_right]
  have lhs_eq : crcByteCode crc b = ((crc % 256) <<< 8) ^^^ crcQuick t := by
    simp only [crcByteCode, crcQuick, ← htdef, htemp, hcrc1]
    have hq : (t ^^^ (t >>> 4)) % 65536 < 65536 := Nat.mod_lt _ (by norm_num)
    have hq5 : (((t ^^^ (t >>> 4)) % 65536) <<< 5) % 65536 < 65536 :=
      Nat.mod_lt _ (by norm_num)
    have hq12 : (((((t ^^^ (t >>> 4)) % 65536) <<< 5) % 65536) <<< 7) % 65536 < 65536 :=
      Nat.mod_lt _ (by norm_num)
    rw [Nat.mod_eq_of_lt (xor_lt_65536 hlo8 hq),
        Nat.mod_eq_of_lt (xor_lt_65536 (xor_lt_65536 hlo8 hq) hq5),
        Nat.mod_eq_of_lt (xor_lt_65536 (xor_lt_65536 (xor_lt_65536 hlo8 hq) hq5) hq12)]
    simp [Nat.xor_assoc]
  have rhs_eq : crcByteRef crc b = ((crc % 256) <<< 8) ^^^ crcQuick t := by
    unfold crcByteRef
    conv_lhs => rw [← shiftRight_shiftLeft_xor_low crc]
    rw [Nat.xor_assoc, Nat.xor_comm (crc % 256) (b.val <<< 8), ← Nat.xor_assoc,
        ← shiftLeft_xor_distrib]
    rw [crcSteps8_xor, crcSteps8_low (crc % 256) hlo,
        ← crcQuick_eq_steps8 t ht, Nat.xor_comm]
  rw [lhs_eq, rhs_eq]

/-- The loop body keeps the register below `2 ^ 16`. -/
theorem crcByteCode_lt (crc : Nat) (b : Byte) : crcByteCode crc b < 65536 := by
  simp only [crcByteCode]
  exact Nat.mod_lt _ (by norm_num)

theorem foldl_crcByteCode_eq_ref :
    ∀ (l : List Byte) (crc : Nat), crc < 65536 →
      l.foldl crcByteCode crc = l.foldl crcByteRef crc
  | [], _, _ => rfl
  | b :: l, crc, h => by
    simp only [List.foldl_cons]
    rw [← crcByteCode_eq_ref crc b h]
    exact foldl_crcByteCode_eq_ref l _ (crcByteCode_lt crc b)

/-- `parser::calculate_crc` computes exactly the CRC-CCITT-FALSE checksum
(initial value `0xFFFF`) of its input. -/
theorem calculate_crc_eq_ccitt_false (frame : List Byte) :
    calculate_crc frame = crc_ccitt_false frame :=
  foldl_crcByteCode_eq_ref frame 0xFFFF (by norm_num)

/-! ## C37.118 codec data model
(source: `src/include/villas/nodes/c37_118/types.hpp`)

Integer fields hold the corresponding C integer's value (`uint16_t`/`uint32_t`
bit pattern); `float` fields hold the 32-bit IEEE-754 pattern, which is what
the codec moves through the wire unchanged. -/

/-- `parser::Status`: the discriminated error kinds of the codec. -/
inductive Status where
  | missingBytes
  | missingConfig
  | invalidValue
  | invalidChecksum
  | invalidSlice
deriving DecidableEq

/-- `types::Phasor`: `std::variant<Rectangular<int16_t>, Polar<int16_t>,
Rectangular<float>, Polar<float>>`.  Payload numbers are the raw 16- or
32-bit patterns. -/
inductive Phasor where
  | rectI (re im : Nat)
  | polarI (mag ph : Nat)
  | rectF (re im : Nat)
  | polarF (mag ph : Nat)
deriving DecidableEq

/-- `std::variant::index()` of a `Phasor`. -/
def Phasor.index : Phasor → Nat
  | .rectI _ _ => 0
  | .polarI _ _ => 1
  | .rectF _ _ => 2
  | .polarF _ _ => 3

/-- `types::Analog`: `std::variant<int16_t, float>`. -/
inductive Analog where
  | aInt (v : Nat)
  | aFloat (v : Nat)
deriving DecidableEq

def Analog.index : Analog → Nat
  | .aInt _ => 0
  | .aFloat _ => 1

/-- `types::Freq`: `std::variant<int16_t, float>`. -/
inductive Freq where
  | fInt (v : Nat)
  | fFloat (v : Nat)
deriving DecidableEq

def Freq.index : Freq → Nat
  | .fInt _ => 0
  | .fFloat _ => 1

structure PmuData where
  stat : Nat
  phasor : List Phasor
  freq : Freq
  dfreq : Freq
  analog : List Analog
  digital : List Nat
deriving DecidableEq

structure Data where
  pmus : List PmuData
deriving DecidableEq

structure Header where
  data : List Byte
deriving DecidableEq

/-- `types::Name1`: a channel name; on the wire always exactly 16 bytes. -/
abbrev Name1 := List Byte

structure ChannelInfo where
  nam : Name1
  unit : Nat
deriving DecidableEq

/-- `types::DigitalInfo`: `std::array<Name1, 16>` of names plus a unit word.
The C array always has 16 entries; the model uses a list. -/
structure DigitalInfo where
  nam : List Name1
  unit : Nat
deriving DecidableEq

structure PmuConfig1 where
  stn : Name1
  idcode : Nat
  format : Nat
  phinfo : List ChannelInfo
  aninfo : List ChannelInfo
  dginfo : List DigitalInfo
  fnom : Nat
  cfgcnt : Nat
deriving DecidableEq, Inhabited

structure Config1 where
  time_base : Nat
  pmus : List PmuConfig1
  data_rate : Nat
deriving DecidableEq, Inhabited

structure Command where
  cmd : Nat
  ext : List Byte
deriving DecidableEq

/-- `types::Message`: `std::variant<Data, Header, Config1, Config2, Command,
Config3>` in that variant order.  `Config2` has the same layout as `Config1`
(`struct Config2 : public Config1`), and `Config3` is an empty struct. -/
inductive Message where
  | data (d : Data)
  | header (h : Header)
  | config1 (c : Config1)
  | config2 (c : Config1)
  | command (c : Command)
  | config3
deriving DecidableEq

/-- `std::variant::index()` of a `Message`. -/
def Message.index : Message → Nat
  | .data _ => 0
  | .header _ => 1
  | .config1 _ => 2
  | .config2 _ => 3
  | .command _ => 4
  | .config3 => 5

structure Frame where
  version : Nat
  idcode : Nat
  soc : Nat
  fracsec : Nat
  message : Message
deriving DecidableEq

/-! ### Context accessors (source: `Context::format` etc.)

The parser's `Context` holds a bound config and a running `pmu_index`; the
model passes the config and the index explicitly.  The C accessors return
`uint16_t`, hence the `% 65536` on the list sizes.  `config.pmus[pmu_index]`
is unchecked in C; out-of-range access is modelled with `getD`'s default. -/

def ctx_num_pmu (c : Config1) : Nat := c.pmus.length % 65536

def ctx_format (c : Config1) (i : Nat) : Nat := (c.pmus.getD i default).format

def ctx_phnmr (c : Config1) (i : Nat) : Nat :=
  (c.pmus.getD i default).phinfo.length % 65536

def ctx_annmr (c : Config1) (i : Nat) : Nat :=
  (c.pmus.getD i default).aninfo.length % 65536

def ctx_dgnmr (c : Config1) (i : Nat) : Nat :=
  (c.pmus.getD i default).dginfo.length % 65536

/-! ### Serialisation (source: `Parser::serialize` overloads)

The C serialiser writes into a caller-provided buffer through a cursor and
fails with `missing-bytes` when the buffer is exhausted; the model appends to
an unbounded byte list, i.e. it describes serialisation into a sufficiently
large buffer.  The `Placeholder<uint16_t>` used for the frame size writes two
zero bytes and later patches exactly those two bytes, which is modelled by
emitting the final size word directly at that offset. -/

/-- Truncate a machine integer to one byte (`unsigned char` store). -/
def byteOf (n : Nat) : Byte := ⟨n % 256, Nat.mod_lt _ (by norm_num)⟩

/-- Big-endian `uint16_t` write (`htons`). -/
def ser_u16 (i : Nat) : List Byte := [byteOf (i / 256), byteOf i]

/-- Big-endian `uint32_t` write (`htonl`). -/
def ser_u32 (i : Nat) : List Byte :=
  [byteOf (i / 16777216), byteOf (i / 65536), byteOf (i / 256), byteOf i]

/-- Serialise each element of a vector, stopping at the first error
(the `std::vector` / `std::array` overloads of `Parser::serialize`). -/
def serEach {α : Type} (f : α → Except Status (List Byte)) :
    List α → Except Status (List Byte)
  | [] => .ok []
  | x :: xs => do
    let h ← f x
    let t ← serEach f xs
    pure (h ++ t)

/-- `Parser::serialize(Phasor const *)`: the variant index must agree with
bits 0..1 of the bound config's format word. -/
def serialize_Phasor (fmt : Nat) (p : Phasor) : Except Status (List Byte) :=
  if fmt &&& 0x3 ≠ p.index then .error .invalidValue
  else match p with
    | .rectI re im => .ok (ser_u16 re ++ ser_u16 im)
    | .polarI mag ph => .ok (ser_u16 mag ++ ser_u16 ph)
    | .rectF re im => .ok (ser_u32 re ++ ser_u32 im)
    | .polarF mag ph => .ok (ser_u32 mag ++ ser_u32 ph)

/-- `Parser::serialize(Analog const *)`: bit 2 of the format word selects
float analogs. -/
def serialize_Analog (fmt : Nat) (a : Analog) : Except Status (List Byte) :=
  if fmt &&& 0x4 ≠ a.index <<< 2 then .error .invalidValue
  else match a with
    | .aInt v => .ok (ser_u16 v)
    | .aFloat v => .ok (ser_u32 v)

/-- `Parser::serialize(Freq const *)`: bit 3 of the format word selects
float frequency words. -/
def serialize_Freq (fmt : Nat) (f : Freq) : Except Status (List Byte) :=
  if fmt &&& 0x8 ≠ f.index <<< 3 then .error .invalidValue
  else match f with
    | .fInt v => .ok (ser_u16 v)
    | .fFloat v => .ok (ser_u32 v)

/-- `Parser::serialize(PmuData const *)` at `pmu_index = i`. -/
def serialize_PmuData (cfg : Config1) (i : Nat) (p : PmuData) :
    Except Status (List Byte) :=
  if p.phasor.length ≠ ctx_phnmr cfg i ∨ p.analog.length ≠ ctx_annmr cfg i ∨
      p.digital.length ≠ ctx_dgnmr cfg i then .error .invalidValue
  else do
    let ph ← serEach (serialize_Phasor (ctx_format cfg i)) p.phasor
    let fr ← serialize_Freq (ctx_format cfg i) p.freq
    let dfr ← serialize_Freq (ctx_format cfg i) p.dfreq
    let an ← serEach (serialize_Analog (ctx_format cfg i)) p.analog
    let dg ← serEach (fun d => (.ok (ser_u16 d) : Except Status (List Byte))) p.digital
    pure (ser_u16 p.stat ++ ph ++ fr ++ dfr ++ an ++ dg)

/-- The pmu loop of `Parser::serialize(Data const *)`: `ctx.next_pmu()` after
each element is the increasing index. -/
def serialize_DataPmus (cfg : Config1) : Nat → List PmuData → Except Status (List Byte)
  | _, [] => .ok []
  | i, p :: ps => do
    let h ← serialize_PmuData cfg i p
    let t ← serialize_DataPmus cfg (i + 1) ps
    pure (h ++ t)

/-- `Parser::serialize(Data const *)`. -/
def serialize_Data (cfg? : Option Config1) (d : Data) : Except Status (List Byte) :=
  match cfg? with
  | none => .error .missingConfig
  | some cfg =>
    if d.pmus.length ≠ ctx_num_pmu cfg then .error .invalidValue
    else serialize_DataPmus cfg 0 d.pmus

/-- `Parser::serialize(Name1 const *)`: copy into a zeroed 16-byte buffer
(truncating or zero-padding) and emit the 16 bytes. -/
def serialize_Name1 (n : Name1) : List Byte :=
  n.take 16 ++ List.replicate (16 - n.length) (0 : Byte)

/-- `Parser::serialize(PmuConfig1 const *)`: names first, then units, as the
source splits `phinfo`/`aninfo`/`dginfo` into separate name and unit vectors. -/
def serialize_PmuConfig1 (p : PmuConfig1) : List Byte :=
  serialize_Name1 p.stn ++ ser_u16 p.idcode ++ ser_u16 p.format ++
  ser_u16 p.phinfo.length ++ ser_u16 p.aninfo.length ++ ser_u16 p.dginfo.length ++
  (p.phinfo.map (fun c => serialize_Name1 c.nam)).flatten ++
  (p.aninfo.map (fun c => serialize_Name1 c.nam)).flatten ++
  (p.dginfo.map (fun g => (g.nam.map serialize_Name1).flatten)).flatten ++
  (p.phinfo.map (fun c => ser_u32 c.unit)).flatten ++
  (p.aninfo.map (fun c => ser_u32 c.unit)).flatten ++
  (p.dginfo.map (fun g => ser_u32 g.unit)).flatten ++
  ser_u16 p.fnom ++ ser_u16 p.cfgcnt

/-- `Parser::serialize(Config1 const *)` (also used for `Config2`). -/
def serialize_Config1 (c : Config1) : List Byte :=
  ser_u32 c.time_base ++ ser_u16 c.pmus.length ++
  (c.pmus.map serialize_PmuConfig1).flatten ++ ser_u16 c.data_rate

/-- `Parser::serialize(Command const *)`. -/
def serialize_Command (c : Command) : List Byte :=
  ser_u16 c.cmd ++ c.ext

/-- `std::visit` of `Parser::serialize` over the message variant.
`Parser::serialize(Config3 const *)` writes nothing (its
`assert("unimplemented")` is a no-op on a non-null string literal). -/
def serialize_Message (cfg? : Option Config1) : Message → Except Status (List Byte)
  | .data d => serialize_Data cfg? d
  | .header h => .ok h.data
  | .config1 c => .ok (serialize_Config1 c)
  | .config2 c => .ok (serialize_Config1 c)
  | .command c => .ok (serialize_Command c)
  | .config3 => .ok []

/-- Sync-word frame-type code assigned by the switch in
`Parser::serialize(Frame const *)`.  Faithful to the source: variant index 4
(`Command`) maps to `0x50` and index 5 (`Config3`) maps to `0x40` — which is
swapped relative to the switch in `Parser::deserialize(Frame *)`. -/
def frameTypeCode : Message → Nat
  | .data _ => 0x00
  | .header _ => 0x10
  | .config1 _ => 0x20
  | .config2 _ => 0x30
  | .command _ => 0x50
  | .config3 => 0x40

/-- `Parser::serialize(Frame const *)`: header with a size placeholder, then
the message, then the back-patched total size and the CRC over everything
written so far. -/
def serialize_Frame (cfg? : Option Config1) (f : Frame) : Except Status (List Byte) :=
  let sync := (0xAA00 ||| frameTypeCode f.message ||| f.version) % 65536
  match serialize_Message cfg? f.message with
  | .error e => .error e
  | .ok msg =>
    let size := 14 + msg.length
    let total := size + 2
    let body := ser_u16 sync ++ ser_u16 total ++ ser_u16 f.idcode ++
      ser_u32 f.soc ++ ser_u32 f.fracsec ++ msg
    .ok (body ++ ser_u16 (calculate_crc body))

/-! ### Deserialisation (source: `Parser::deserialize` overloads)

A deserialiser takes the buffer and a cursor position and returns the parsed
value together with the new cursor position; `Parser::require` failing is
`missing-bytes`. -/

/-- `Parser::deserialize(uint16_t *)`: big-endian read (`ntohs`). -/
def deser_u16 (bs : List Byte) (pos : Nat) : Except Status (Nat × Nat) :=
  if pos + 2 ≤ bs.length then
    .ok (256 * (bs.getD pos 0).val + (bs.getD (pos + 1) 0).val, pos + 2)
  else .error .missingBytes

/-- `Parser::deserialize(uint32_t *)`: big-endian read (`ntohl`). -/
def deser_u32 (bs : List Byte) (pos : Nat) : Except Status (Nat × Nat) :=
  if pos + 4 ≤ bs.length then
    .ok (16777216 * (bs.getD pos 0).val + 65536 * (bs.getD (pos + 1) 0).val +
      256 * (bs.getD (pos + 2) 0).val + (bs.getD (pos + 3) 0).val, pos + 4)
  else .error .missingBytes

/-- Deserialise `n` elements in sequence (the `std::vector`/`std::array`
overloads of `Parser::deserialize`, after the vector has been resized to
`n`). -/
def deserN {α : Type} (f : List Byte → Nat → Except Status (α × Nat))
    (bs : List Byte) : Nat → Nat → Except Status (List α × Nat)
  | pos, 0 => .ok ([], pos)
  | pos, n + 1 => do
    let (x, p1) ← f bs pos
    let (xs, p2) ← deserN f bs p1 n
    pure (x :: xs, p2)

/-- `Parser::deserialize(Phasor *)`: bits 0..1 of the bound config's format
word select the variant. -/
def deser_Phasor (fmt : Nat) (bs : List Byte) (pos : Nat) :
    Except Status (Phasor × Nat) :=
  match fmt &&& 0x3 with
  | 0 => do
    let (re, p1) ← deser_u16 bs pos
    let (im, p2) ← deser_u16 bs p1
    pure (.rectI re im, p2)
  | 1 => do
    let (mag, p1) ← deser_u16 bs pos
    let (ph, p2) ← deser_u16 bs p1
    pure (.polarI mag ph, p2)
  | 2 => do
    let (re, p1) ← deser_u32 bs pos
    let (im, p2) ← deser_u32 bs p1
    pure (.rectF re im, p2)
  | _ => do
    let (mag, p1) ← deser_u32 bs pos
    let (ph, p2) ← deser_u32 bs p1
    pure (.polarF mag ph, p2)

/-- `Parser::deserialize(Analog *)`. -/
def deser_Analog (fmt : Nat) (bs : List Byte) (pos : Nat) :
    Except Status (Analog × Nat) :=
  if fmt &&& 0x4 ≠ 0 then do
    let (v, p1) ← deser_u32 bs pos
    pure (.aFloat v, p1)
  else do
    let (v, p1) ← deser_u16 bs pos
    pure (.aInt v, p1)

/-- `Parser::deserialize(Freq *)`. -/
def deser_Freq (fmt : Nat) (bs : List Byte) (pos : Nat) :
    Except Status (Freq × Nat) :=
  if fmt &&& 0x8 ≠ 0 then do
    let (v, p1) ← deser_u32 bs pos
    pure (.fFloat v, p1)
  else do
    let (v, p1) ← deser_u16 bs pos
    pure (.fInt v, p1)

/-- `Parser::deserialize(PmuData *)` at `pmu_index = i`. -/
def deser_PmuData (cfg : Config1) (i : Nat) (bs : List Byte) (pos : Nat) :
    Except Status (PmuData × Nat) := do
  let (stat, p1) ← deser_u16 bs pos
  let (phasors, p2) ← deserN (deser_Phasor (ctx_format cfg i)) bs p1 (ctx_phnmr cfg i)
  let (freq, p3) ← deser_Freq (ctx_format cfg i) bs p2
  let (dfreq, p4) ← deser_Freq (ctx_format cfg i) bs p3
  let (analogs, p5) ← deserN (deser_Analog (ctx_format cfg i)) bs p4 (ctx_annmr cfg i)
  let (digitals, p6) ← deserN deser_u16 bs p5 (ctx_dgnmr cfg i)
  pure (⟨stat, phasors, freq, dfreq, analogs, digitals⟩, p6)

/-- The pmu loop of `Parser::deserialize(Data *)` after `context->reset()`:
`n` pmus at increasing `pmu_index`. -/
def deser_DataPmus (cfg : Config1) (bs : List Byte) :
    Nat → Nat → Nat → Except Status (List PmuData × Nat)
  | _, 0, pos => .ok ([], pos)
  | i, n + 1, pos => do
    let (p, p1) ← deser_PmuData cfg i bs pos
    let (ps, p2) ← deser_DataPmus cfg bs (i + 1) n p1
    pure (p :: ps, p2)

/-- `Parser::deserialize(Data *)`: a parser with no bound config refuses the
frame with `missing-config`. -/
def deser_Data (cfg? : Option Config1) (bs : List Byte) (pos : Nat) :
    Except Status (Data × Nat) :=
  match cfg? with
  | none => .error .missingConfig
  | some cfg => do
    let (pmus, p1) ← deser_DataPmus cfg bs 0 (ctx_num_pmu cfg) pos
    pure (⟨pmus⟩, p1)

/-- `Parser::deserialize(Header *)`: the header text is all remaining bytes. -/
def deser_Header (bs : List Byte) (pos : Nat) : Except Status (Header × Nat) :=
  .ok (⟨bs.drop pos⟩, bs.length)

/-- `Parser::deserialize(Command *)`: a command word, then all remaining
bytes as the extended frame. -/
def deser_Command (bs : List Byte) (pos : Nat) : Except Status (Command × Nat) := do
  let (cmd, p1) ← deser_u16 bs pos
  pure (⟨cmd, bs.drop p1⟩, bs.length)

/-- `Parser::deserialize(Name1 *)`: exactly 16 bytes. -/
def deser_Name1 (bs : List Byte) (pos : Nat) : Except Status (Name1 × Nat) :=
  if pos + 16 ≤ bs.length then .ok ((bs.drop pos).take 16, pos + 16)
  else .error .missingBytes

/-- A digital channel's name block: `std::array<Name1, 16>`. -/
def deser_Name16 (bs : List Byte) (pos : Nat) : Except Status (List Name1 × Nat) :=
  deserN deser_Name1 bs pos 16

/-- `Parser::deserialize(PmuConfig1 *)`: counts, then all names, then all
units, then `fnom`/`cfgcnt`; the `ChannelInfo`/`DigitalInfo` lists are zipped
together afterwards, as in the source's assembly loops. -/
def deser_PmuConfig1 (bs : List Byte) (pos : Nat) :
    Except Status (PmuConfig1 × Nat) := do
  let (stn, p1) ← deser_Name1 bs pos
  let (idcode, p2) ← deser_u16 bs p1
  let (format, p3) ← deser_u16 bs p2
  let (phnmr, p4) ← deser_u16 bs p3
  let (annmr, p5) ← deser_u16 bs p4
  let (dgnmr, p6) ← deser_u16 bs p5
  let (phnam, p7) ← deserN deser_Name1 bs p6 phnmr
  let (annam, p8) ← deserN deser_Name1 bs p7 annmr
  let (dgnam, p9) ← deserN deser_Name16 bs p8 dgnmr
  let (phunit, p10) ← deserN deser_u32 bs p9 phnmr
  let (anunit, p11) ← deserN deser_u32 bs p10 annmr
  let (dgunit, p12) ← deserN deser_u32 bs p11 dgnmr
  let (fnom, p13) ← deser_u16 bs p12
  let (cfgcnt, p14) ← deser_u16 bs p13
  pure (⟨stn, idcode, format,
    (phnam.zip phunit).map (fun x => ⟨x.1, x.2⟩),
    (annam.zip anunit).map (fun x => ⟨x.1, x.2⟩),
    (dgnam.zip dgunit).map (fun x => ⟨x.1, x.2⟩),
    fnom, cfgcnt⟩, p14)

/-- `Parser::deserialize(Config1 *)` (also used for `Config2`). -/
def deser_Config1 (bs : List Byte) (pos : Nat) :
    Except Status (Config1 × Nat) := do
  let (time_base, p1) ← deser_u32 bs pos
  let (num_pmu, p2) ← deser_u16 bs p1
  let (pmus, p3) ← deserN deser_PmuConfig1 bs p2 num_pmu
  let (data_rate, p4) ← deser_u16 bs p3
  pure (⟨time_base, pmus, data_rate⟩, p4)

/-- The message kind selected by the switch on `sync & 0xF0` in
`Parser::deserialize(Frame *)`: `0x40` is a command and `0x50` a config-3. -/
inductive MsgKind where
  | dataK
  | headerK
  | config1K
  | config2K
  | commandK
  | config3K
deriving DecidableEq

def msgKindOfNibble (t : Nat) : Except Status MsgKind :=
  match t with
  | 0x00 => .ok .dataK
  | 0x10 => .ok .headerK
  | 0x20 => .ok .config1K
  | 0x30 => .ok .config2K
  | 0x40 => .ok .commandK
  | 0x50 => .ok .config3K
  | _ => .error .invalidValue

/-- The `std::visit` of `Parser::deserialize` over the selected message,
run on the message subparser's byte range.
`Parser::deserialize(Config3 *)` parses nothing (its
`assert("unimplemented")` is a no-op on a non-null string literal). -/
def deser_MessageOfKind (cfg? : Option Config1) :
    MsgKind → List Byte → Except Status Message
  | .dataK, ms => (deser_Data cfg? ms 0).map (fun x => .data x.1)
  | .headerK, ms => (deser_Header ms 0).map (fun x => .header x.1)
  | .config1K, ms => (deser_Config1 ms 0).map (fun x => .config1 x.1)
  | .config2K, ms => (deser_Config1 ms 0).map (fun x => .config2 x.1)
  | .commandK, ms => (deser_Command ms 0).map (fun x => .command x.1)
  | .config3K, _ => .ok .config3

/-- `size_t` subtraction (wraps modulo `2 ^ 64`), as in
`framesize - sizeof(uint16_t)` and `contentsize - result`. -/
def sub64 (a b : Nat) : Nat :=
  (a + 18446744073709551616 - b % 18446744073709551616) % 18446744073709551616

/-- `Parser::deserialize(Frame *)` up to (and including) reading the trailing
CRC word, returning the parsed frame, the CRC calculated over the frame's
content bytes, and the CRC read from the wire.  The final comparison lives in
`deserialize_Frame`.  The `slice(-result, contentsize)` call fails with
`missing-bytes` when `contentsize` bytes from the frame start exceed the
buffer; `require(messagesize)` fails the same way for the message subrange. -/
def deser_Frame_precrc (cfg? : Option Config1) (bs : List Byte) :
    Except Status (Frame × Nat × Nat) := do
  let (sync, p1) ← deser_u16 bs 0
  let (framesize, p2) ← deser_u16 bs p1
  let (idcode, p3) ← deser_u16 bs p2
  let (soc, p4) ← deser_u32 bs p3
  let (fracsec, p5) ← deser_u32 bs p4
  let contentsize := sub64 framesize 2
  let messagesize := sub64 contentsize p5
  if contentsize > bs.length then .error .missingBytes
  else
    let calculated := calculate_crc (bs.take contentsize)
    if sync &&& 0xFF00 ≠ 0xAA00 then .error .invalidValue
    else do
      let version := sync &&& 0xF
      let kind ← msgKindOfNibble (sync &&& 0xF0)
      if p5 + messagesize > bs.length then .error .missingBytes
      else do
        let msgBytes := (bs.drop p5).take messagesize
        let message ← deser_MessageOfKind cfg? kind msgBytes
        let (crc, _) ← deser_u16 bs (p5 + messagesize)
        pure (⟨version, idcode, soc, fracsec, message⟩, calculated, crc)

/-- `Parser::deserialize(Frame *)`: parse, then compare the read CRC with the
calculated one; a mismatch is `invalid-checksum`. -/
def deserialize_Frame (cfg? : Option Config1) (bs : List Byte) :
    Except Status Frame :=
  match deser_Frame_precrc cfg? bs with
  | .error e => .error e
  | .ok (f, calculated, crc) =>
    if crc ≠ calculated then .error .invalidChecksum else .ok f

/-! ## Concrete codec inputs used by the codec theorems -/

/-- A command frame (`CMD = DATA_START`). -/
def frameCmdEx : Frame := ⟨1, 7, 0, 0, .command ⟨1, []⟩⟩

/-- A header frame with a two-byte header text. -/
def frameHdrEx : Frame := ⟨1, 7, 3, 4, .header ⟨[65, 66]⟩⟩

/-- The bytes of the serialised header frame. -/
def hdrBytesEx : List Byte := (serialize_Frame none frameHdrEx).toOption.getD []

/-- The serialised header frame with its last CRC byte corrupted. -/
def hdrBytesCorruptEx : List Byte := hdrBytesEx.dropLast ++ [byteOf 255]

def framePreDefault : Frame × Nat × Nat := (⟨0, 0, 0, 0, .config3⟩, 0, 0)

/-- The result of the pre-CRC parsing phase on the corrupted buffer. -/
def hdrPreEx : Frame × Nat × Nat :=
  (deser_Frame_precrc none hdrBytesCorruptEx).toOption.getD framePreDefault

/-- A two-PMU config-2 frame, `format = 0x0003` (polar float phasors, integer
frequency, integer analogs). -/
def cfgEx : Config1 :=
  ⟨1000000,
   [⟨List.replicate 16 (65 : Byte), 1, 0x0003,
     [⟨List.replicate 16 (66 : Byte), 0⟩], [], [], 50, 1⟩,
    ⟨List.replicate 16 (67 : Byte), 2, 0x0003,
     [], [⟨List.replicate 16 (68 : Byte), 5⟩], [], 50, 1⟩],
   30⟩

/-- A data frame bound to `cfgEx`. -/
def frameDataEx : Frame :=
  ⟨1, 7, 3, 4, .data ⟨[⟨9, [.polarF 100 200], .fInt 60, .fInt 0, [], []⟩,
                       ⟨9, [], .fInt 60, .fInt 0, [.aInt 5], []⟩]⟩⟩

/-- The serialised data frame (serialised with its config bound). -/
def dataBytesEx : List Byte :=
  (serialize_Frame (some cfgEx) frameDataEx).toOption.getD []

/-! ## Codec claims -/

/-- C4 (code bug).  The claim states `deserialize (serialize f) = f` for
every message type, and in particular that serialisation and deserialisation
agree on the sync-word frame-type codes.  They do not: the switch in
`Parser::serialize(Frame const *)` maps variant index 4 (`Command`) to type
code `0x50` and index 5 (`Config3`) to `0x40`, while
`Parser::deserialize(Frame *)` maps `0x40` to `Command` and `0x50` to
`Config3`.  Consequently a serialised command frame parses back as a config-3
frame: the round trip succeeds but returns a different frame. -/
theorem c4_command_config3_type_codes_swapped :
    frameTypeCode (Message.command ⟨1, []⟩) = 0x50 ∧
    msgKindOfNibble 0x40 = .ok .commandK ∧
    msgKindOfNibble 0x50 = .ok .config3K ∧
    deserialize_Frame none ((serialize_Frame none frameCmdEx).toOption.getD [])
      = .ok ⟨1, 7, 0, 0, .config3⟩ ∧
    (⟨1, 7, 0, 0, .config3⟩ : Frame) ≠ frameCmdEx := by
  refine ⟨rfl, rfl, rfl, by rfl, by decide⟩

/-- C5 (confirmed).  (1) Every successfully serialised frame consists of a
body followed by the big-endian CRC-CCITT-FALSE checksum (initial value
`0xFFFF`) of exactly that body — i.e. of every byte of the output except the
CRC field itself.  (2) Whenever frame parsing reaches the final CRC
comparison and the CRC read from the wire differs from the checksum
calculated over the frame's content bytes, deserialisation fails with the
invalid-checksum error. -/
theorem c5_crc_trailer_and_checksum_reject :
    (∀ (cfg? : Option Config1) (f : Frame) (bytes : List Byte),
      serialize_Frame cfg? f = .ok bytes →
      ∃ body, bytes = body ++ ser_u16 (crc_ccitt_false body)) ∧
    (∀ (cfg? : Option Config1) (bs : List Byte) (f : Frame) (cval rval : Nat),
      deser_Frame_precrc cfg? bs = .ok (f, cval, rval) → rval ≠ cval →
      deserialize_Frame cfg? bs = .error .invalidChecksum) := by
  constructor
  · intro cfg? f bytes h
    unfold serialize_Frame at h
    split at h
    · simp at h
    · simp only [Except.ok.injEq] at h
      exact ⟨_, by rw [← h, calculate_crc_eq_ccitt_false]⟩
  · intro cfg? bs f cval rval h hne
    unfold deserialize_Frame
    rw [h]
    simp [hne]

/-- Witness for C5: the serialised header frame ends in the CRC-CCITT-FALSE
of its body, and the same buffer with a corrupted last CRC byte is rejected
with the invalid-checksum error. -/
theorem c5_crc_trailer_and_checksum_reject_witness :
    (serialize_Frame none frameHdrEx = .ok hdrBytesEx ∧
      ∃ body, hdrBytesEx = body ++ ser_u16 (crc_ccitt_false body)) ∧
    (deser_Frame_precrc none hdrBytesCorruptEx
        = .ok (hdrPreEx.1, hdrPreEx.2.1, hdrPreEx.2.2) ∧
      hdrPreEx.2.2 ≠ hdrPreEx.2.1 ∧
      deserialize_Frame none hdrBytesCorruptEx = .error .invalidChecksum) :=
  ⟨⟨rfl, c5_crc_trailer_and_checksum_reject.1 none frameHdrEx hdrBytesEx rfl⟩,
   ⟨rfl, by decide,
    c5_crc_trailer_and_checksum_reject.2 none hdrBytesCorruptEx
      hdrPreEx.1 hdrPreEx.2.1 hdrPreEx.2.2 rfl (by decide)⟩⟩

/-- C6 (confirmed).  `Parser::deserialize(Data *)` with no bound config
refuses every buffer at every cursor position with the missing-config error
and produces no value; consequently a whole serialised data frame fed to a
config-less parser is likewise refused with missing-config. -/
theorem c6_data_frame_without_config_is_refused :
    (∀ (bs : List Byte) (pos : Nat),
      deser_Data none bs pos = .error .missingConfig) ∧
    deserialize_Frame none dataBytesEx = .error .missingConfig := by
  exact ⟨fun bs pos => rfl, by rfl⟩

/-! ## Path engine (source: `src/lib/path.c`)

Samples are identified by a `Nat` payload.  The queue, pool and hook chain
are implemented in files that are not part of this source tree (`queue.c`,
`pool.c`, `hook.c`); `path.c` only calls them, so they are modelled from the
specification document (§4.1–§4.3):

* the queue is modelled by the full pushed stream plus per-reader cursors
  (absolute positions), with the writer cursor `p->in->received` equal to the
  stream length — `queue_push_many` advances it by the count pushed and the
  queue starts empty, so the two are equal throughout;
* `queue_get_many(q, smps, cnt, base)` is the spec's non-advancing `peek`:
  up to `cnt` samples of the stream starting at `base`;
* `queue_push_many` truncates so the writer never laps the slowest reader;
* `queue_pull_many` advances the given reader cursor;
* the pool is a free count (`sample_get_many` takes, `pool_put_many` returns;
  reference counting is not observable in the verified claims);
* `hook_run(p, smps, cnt, kind)` on a batch runs every hook whose type mask
  matches `kind` in list order and discards samples whose verdict is `skip`
  (spec §4.3); for the batchless `HOOK_ASYNC` invocation the integer result
  is an oracle field of the state.

`error(...)` in the C source terminates the path fatally; functions that can
hit it return `Option`, with `none` for the fatal exit. -/

/-- Hook verdicts (spec §4.3). -/
inductive HookAction where
  | ok
  | skip
  | error
  | stop
deriving DecidableEq

/-- Hook type-mask bits.  `hooks.h` is not part of the source tree; the only
facts used are that the three kinds are distinct mask bits. -/
def HOOK_READ : Nat := 1
def HOOK_WRITE : Nat := 2
def HOOK_ASYNC : Nat := 4

/-- A path hook: type mask, history window, queue reader cursor (`h->head`)
and per-sample verdict. -/
structure Hook where
  typeMask : Nat
  history : Nat
  head : Nat
  process : Nat → HookAction

/-- Modelled from the spec (§4.3): run the hooks matching `kind` in order,
discarding samples whose verdict is `skip`; the surviving batch is returned
(its length is `hook_run`'s return value in C). -/
def hook_run_batch (hooks : List Hook) (kind : Nat) (smps : List Nat) : List Nat :=
  hooks.foldl
    (fun batch h =>
      if h.typeMask &&& kind ≠ 0 then
        batch.filter (fun s => h.process s ≠ HookAction.skip)
      else batch)
    smps

/-- A destination node, as used by `path_write`: vectorize factor, queue
reader cursor (`n->sent`) and the `node_write` oracle returning the count
accepted (negative = fatal). -/
structure Dest where
  vectorize : Nat
  sent : Nat
  writeRet : List Nat → Int

/-- The state of one path (the fields of `struct path` and of its source
node that `path_run` / `path_run_async` touch). -/
structure PathState where
  /-- Queue slot count `Q`. -/
  queueSize : Nat
  /-- All samples ever pushed into the queue, in push order; the writer
  cursor `p->in->received` equals its length (see the section comment). -/
  stream : List Nat
  /-- Destination nodes, in configured order. -/
  dests : List Dest
  /-- Path hooks (each holds a queue reader cursor). -/
  hooks : List Hook
  /-- `p->skipped`. -/
  skipped : Nat
  /-- `p->overrun`. -/
  overrun : Nat
  /-- Free samples in the path's pool (spec §4.1). -/
  poolFree : Nat
  /-- `p->rate == 0` (forward on arrival)? -/
  rate0 : Bool
  /-- Oracle for `hook_run(p, NULL, 0, HOOK_ASYNC)` (nonzero suppresses the
  periodic send; hook implementation not in the source tree). -/
  asyncRet : Nat
  /-- `p->in->vectorize`. -/
  inVectorize : Nat

/-- The writer cursor `p->in->received`. -/
def PathState.received (p : PathState) : Nat := p.stream.length

/-- The slowest queue reader: every destination's `sent` cursor and every
hook's `head` cursor (path_prepare registers one reader per hook and one per
destination). -/
def minReader (p : PathState) : Nat :=
  ((p.dests.map Dest.sent) ++ (p.hooks.map Hook.head)).foldr min p.received

/-- Modelled from the spec (§4.2 `peek`): non-advancing read of up to `cnt`
samples starting at absolute position `base`.  `base` is an `int` in
`path_write`; a negative base (only reachable when `received < vectorize`)
yields nothing. -/
def queue_get_many (stream : List Nat) (cnt : Nat) (base : Int) : List Nat :=
  if base < 0 then [] else (stream.drop base.toNat).take cnt

/-- One destination step of the `list_foreach` loop in `path_write`,
returning the updated destination and the number of samples released to the
pool, or `none` on a fatal `node_write` error. -/
def path_write_dest (stream : List Nat) (hooks : List Hook) (resend : Bool)
    (n : Dest) : Option (Dest × Nat) :=
  let cnt := n.vectorize
  let base : Int := if resend then (stream.length : Int) - cnt else (n.sent : Int)
  let smps := queue_get_many stream cnt base
  if smps.length = 0 then some (n, 0)
  else
    let out := hook_run_batch hooks HOOK_WRITE smps
    if out.length = 0 then some (n, 0)
    else
      let sent := n.writeRet out
      if sent < 0 then none
      else if resend then some (n, 0)
      else
        let release := min sent.toNat (stream.length - n.sent)
        some ({ n with sent := n.sent + release }, release)

def path_write_go (stream : List Nat) (hooks : List Hook) (resend : Bool) :
    List Dest → Option (List Dest × Nat)
  | [] => some ([], 0)
  | n :: rest => do
    let (n2, rel) ← path_write_dest stream hooks resend n
    let (rest2, rels) ← path_write_go stream hooks resend rest
    pure (n2 :: rest2, rel + rels)

/-- `path_write`: for each destination peek a vector from the queue (at
`p->in->received - n->vectorize` when resending, at `n->sent` otherwise),
run the write hooks, write to the node, and — only when not resending —
pull the written samples (advancing `n->sent`) and release them to the
pool.  `none` models the fatal `error(...)` on a negative write. -/
def path_write (p : PathState) (resend : Bool) : Option PathState :=
  match path_write_go p.stream p.hooks resend p.dests with
  | none => none
  | some (ds, rel) => some { p with dests := ds, poolFree := p.poolFree + rel }

/-- The emission part of one send-thread tick: skip when nothing was ever
received or when the `HOOK_ASYNC` chain returns nonzero, otherwise run
`path_write` once with `resend = true` (as `path_run_async` always does).
Returns the new state and the number of send batches emitted (0 or 1). -/
def path_run_async_emit (p1 : PathState) : Option (PathState × Nat) :=
  if p1.received = 0 then some (p1, 0)
  else if p1.asyncRet ≠ 0 then some (p1, 0)
  else match path_write p1 true with
    | none => none
    | some p2 => some (p2, 1)

/-- One iteration of the send-thread loop `path_run_async`, given the number
of timer expirations `expir` reported by `timerfd_wait`.  Faithful to the
source: the overrun counter is increased by the full expiration count
`expir` (not `expir - 1`) whenever `expir > 1`, and exactly one batch is
emitted per tick. -/
def path_run_async_tick (p : PathState) (expir : Nat) :
    Option (PathState × Nat) :=
  path_run_async_emit
    (if expir > 1 then { p with overrun := p.overrun + expir } else p)

/-- The spec's description of the emission (refinement reference, following
the specification's words, NOT the source): the send routine runs with
`resend = true` exactly when no new samples have arrived since the previous
send, i.e. when `p->in->received` still equals its value at the previous
send (`prevReceived`); otherwise it runs a normal (cursor-advancing) send. -/
def path_run_async_emit_spec (p1 : PathState) (prevReceived : Nat) :
    Option (PathState × Nat) :=
  if p1.received = 0 then some (p1, 0)
  else if p1.asyncRet ≠ 0 then some (p1, 0)
  else match path_write p1 (p1.received = prevReceived) with
    | none => none
    | some p2 => some (p2, 1)

/-- The spec's description of a whole tick (refinement reference). -/
def path_run_async_tick_spec (p : PathState) (prevReceived : Nat)
    (expir : Nat) : Option (PathState × Nat) :=
  path_run_async_emit_spec
    (if expir > 1 then { p with overrun := p.overrun + expir } else p)
    prevReceived

/-- The release loop over hooks with history in `path_run`: for each hook,
pull `p->in->received - h->head - h->history` samples (when positive) and
return them to the pool. -/
def hooks_release (received : Nat) : List Hook → List Hook × Nat
  | [] => ([], 0)
  | h :: hs =>
    let (hs2, rels) := hooks_release received hs
    let pull : Int := (received : Int) - h.head - h.history
    if pull > 0 then
      let release := min pull.toNat (received - h.head)
      ({ h with head := h.head + release } :: hs2, release + rels)
    else (h :: hs2, rels)

/-- One iteration of the receive-thread loop `path_run`.  `ready` is the
loop-carried count of allocated sample blocks; `readSmps` are the samples
returned by the source node's `read` (a negative return, fatal in C, has no
model input).  Returns the new state and the new `ready` count, or `none`
when the inline `path_write` (rate 0) hits a fatal write error.

Steps, in source order: refill from the pool, read, run the read hooks
(`skipped` increases by the number the hooks dropped), push into the queue
(modelled from spec §4.2: truncate so the writer never laps the slowest
reader — on truncation the source only warns), release aged samples held for
hook histories, and, if `rate == 0`, send inline.  `path_run_iter_pre` is
everything before the final `if (p->rate == 0) path_write(p, false)` line;
`path_run_iter` is the whole iteration. -/
def path_run_iter_pre (p : PathState) (ready : Nat) (readSmps : List Nat) :
    PathState × Nat :=
  let cnt := p.inVectorize
  let got := min (cnt - ready) p.poolFree
  let p1 := { p with poolFree := p.poolFree - got }
  let ready1 := ready + got
  let recv := readSmps.length
  let kept := hook_run_batch p1.hooks HOOK_READ readSmps
  let enqueue := kept.length
  let p2 := if enqueue ≠ recv then { p1 with skipped := p1.skipped + (recv - enqueue) }
            else p1
  let free := p2.queueSize - (p2.received - minReader p2)
  let enqueued := min enqueue free
  let p3 := { p2 with stream := p2.stream ++ kept.take enqueued }
  let ready2 := ready1 - enqueued
  let hsrel := hooks_release p3.received p3.hooks
  ({ p3 with hooks := hsrel.1, poolFree := p3.poolFree + hsrel.2 }, ready2)

def path_run_iter (p : PathState) (ready : Nat) (readSmps : List Nat) :
    Option (PathState × Nat) :=
  let pre := path_run_iter_pre p ready readSmps
  if pre.1.rate0 then
    match path_write pre.1 false with
    | none => none
    | some p5 => some (p5, pre.2)
  else some pre

/-! ### Path lemmas -/

/-- In resend mode a destination is returned untouched and releases nothing:
every branch of `path_write_dest` with `resend = true` either fails fatally
or yields `(n, 0)`. -/
theorem path_write_dest_resend (stream : List Nat) (hooks : List Hook)
    (n n2 : Dest) (r : Nat)
    (h : path_write_dest stream hooks true n = some (n2, r)) :
    n2 = n ∧ r = 0 := by
  unfold path_write_dest at h
  simp only [] at h
  iterate 8 (all_goals (try (split at h)))
  all_goals (try (cases h))
  all_goals first
    | exact ⟨rfl, rfl⟩
    | simp_all

theorem path_write_go_resend (stream : List Nat) (hooks : List Hook) :
    ∀ (ds : List Dest) (out : List Dest × Nat),
      path_write_go stream hooks true ds = some out →
      out.1 = ds ∧ out.2 = 0
  | [], out, h => by
    cases h
    exact ⟨rfl, rfl⟩
  | n :: rest, out, h => by
    unfold path_write_go at h
    cases hd : path_write_dest stream hooks true n with
    | none => rw [hd] at h; cases h
    | some x =>
      rw [hd] at h
      cases hr : path_write_go stream hooks true rest with
      | none => rw [hr] at h; cases h
      | some y =>
        rw [hr] at h
        obtain ⟨hx1, hx2⟩ := path_write_dest_resend stream hooks n x.1 x.2 (by rw [hd])
        obtain ⟨hy1, hy2⟩ := path_write_go_resend stream hooks rest y hr
        cases h
        constructor
        · simp only [hx1, hy1]
        · simp only [hx2, hy2]

/-- `path_write` in resend mode leaves the whole path state unchanged (in
particular every destination's reader cursor). -/
theorem path_write_resend_id (p p2 : PathState)
    (h : path_write p true = some p2) : p2 = p := by
  unfold path_write at h
  cases hw : path_write_go p.stream p.hooks true p.dests with
  | none => rw [hw] at h; cases h
  | some x =>
    rw [hw] at h
    obtain ⟨h1, h2⟩ := path_write_go_resend p.stream p.hooks p.dests x hw
    cases h
    rw [h1, h2]
    simp

/-- `path_write` only changes the destination list and the pool; the queue
stream, the counters, the hooks and the configuration fields survive. -/
theorem path_write_preserves (p p2 : PathState) (r : Bool)
    (h : path_write p r = some p2) :
    p2.stream = p.stream ∧ p2.skipped = p.skipped ∧ p2.overrun = p.overrun ∧
    p2.hooks = p.hooks ∧ p2.queueSize = p.queueSize ∧ p2.rate0 = p.rate0 ∧
    p2.asyncRet = p.asyncRet ∧ p2.received = p.received := by
  unfold path_write at h
  cases hw : path_write_go p.stream p.hooks r p.dests with
  | none => rw [hw] at h; cases h
  | some x =>
    rw [hw] at h
    cases h
    exact ⟨rfl, rfl, rfl, rfl, rfl, rfl, rfl, rfl⟩

/-- Effects of one send-tick emission on a state: destinations, stream and
overrun are untouched (resend never advances cursors), and at most one batch
goes out — exactly one when something was received and the async hooks let
it pass. -/
theorem path_run_async_emit_effects (p1 : PathState) (o : PathState × Nat)
    (h : path_run_async_emit p1 = some o) :
    o.1.dests = p1.dests ∧ o.1.stream = p1.stream ∧
    o.1.overrun = p1.overrun ∧ o.2 ≤ 1 ∧
    (p1.received ≠ 0 → p1.asyncRet = 0 → o.2 = 1) := by
  unfold path_run_async_emit at h
  split at h
  · rename_i hrec
    cases h
    exact ⟨rfl, rfl, rfl, by omega, fun hc _ => absurd hrec hc⟩
  · split at h
    · rename_i hasync
      cases h
      exact ⟨rfl, rfl, rfl, by omega, fun _ hc => absurd hc hasync⟩
    · cases hw : path_write p1 true with
      | none => rw [hw] at h; cases h
      | some p2 =>
        rw [hw] at h
        cases h
        rw [path_write_resend_id p1 p2 hw]
        exact ⟨rfl, rfl, rfl, by omega, fun _ _ => rfl⟩

/-- Effects of the pre-write part of one receive-loop iteration: `skipped`
grows by exactly the number of samples the read hooks dropped, the queue
stream grows by the pushed span `min enqueue free` (spec §4.2 truncation),
and overrun and rate survive. -/
theorem path_run_iter_pre_effects (p : PathState) (ready : Nat)
    (readSmps : List Nat) :
    (path_run_iter_pre p ready readSmps).1.skipped = p.skipped +
      (readSmps.length - (hook_run_batch p.hooks HOOK_READ readSmps).length) ∧
    (path_run_iter_pre p ready readSmps).1.stream = p.stream ++
      (hook_run_batch p.hooks HOOK_READ readSmps).take
        (min (hook_run_batch p.hooks HOOK_READ readSmps).length
          (p.queueSize - (p.received - minReader p))) ∧
    (path_run_iter_pre p ready readSmps).1.overrun = p.overrun ∧
    (path_run_iter_pre p ready readSmps).1.rate0 = p.rate0 := by
  unfold path_run_iter_pre
  dsimp only
  by_cases hne :
    (hook_run_batch p.hooks HOOK_READ readSmps).length ≠ readSmps.length
  · rw [if_pos hne]
    exact ⟨rfl, rfl, rfl, rfl⟩
  · rw [if_neg hne]
    push_neg at hne
    rw [hne]
    simp [Nat.sub_self]
    rfl

/-- Effects of one receive-loop iteration on the path state: `skipped` grows
by exactly the number of samples the read hooks dropped, the queue stream
grows by the pushed span `min enqueue free` (spec §4.2 truncation), and the
overrun counter is untouched. -/
theorem path_run_iter_effects (p : PathState) (ready : Nat)
    (readSmps : List Nat) (out : PathState × Nat)
    (h : path_run_iter p ready readSmps = some out) :
    out.1.skipped = p.skipped +
      (readSmps.length - (hook_run_batch p.hooks HOOK_READ readSmps).length) ∧
    out.1.stream = p.stream ++
      (hook_run_batch p.hooks HOOK_READ readSmps).take
        (min (hook_run_batch p.hooks HOOK_READ readSmps).length
          (p.queueSize - (p.received - minReader p))) ∧
    out.1.overrun = p.overrun := by
  obtain ⟨h1, h2, h3, _⟩ := path_run_iter_pre_effects p ready readSmps
  unfold path_run_iter at h
  dsimp only at h
  split at h
  · cases hw : path_write (path_run_iter_pre p ready readSmps).1 false with
    | none => rw [hw] at h; cases h
    | some p5 =>
      rw [hw] at h
      cases h
      obtain ⟨hs, hk, ho, _⟩ := path_write_preserves _ _ _ hw
      exact ⟨hk.trans h1, hs.trans h2, ho.trans h3⟩
  · cases h
    exact ⟨h1, h2, h3⟩

/-! ### Concrete path states used by the path theorems -/

/-- One destination with vectorize 1, cursor 0, whose writes always accept
one sample. -/
def destEx : Dest := ⟨1, 0, fun _ => 1⟩

/-- A rate-driven path (queue length 4) that has received two samples
(`10`, `11`) while its only destination's cursor is still at 0 — i.e. new
samples HAVE arrived since the destination last sent. -/
def pathStateEx : PathState := ⟨4, [10, 11], [destEx], [], 0, 0, 8, false, 0, 1⟩

/-- A rate-driven path whose queue (length 2) is completely full: two samples
pushed, the destination cursor still at 0. -/
def pathStateFullQ : PathState :=
  ⟨2, [5, 6], [⟨1, 0, fun _ => 1⟩], [], 0, 0, 4, false, 0, 1⟩

/-- A read hook that skips every other sample (keeps odd payloads). -/
def hookEveryOther : Hook :=
  ⟨HOOK_READ, 0, 0, fun s => if s % 2 = 1 then .ok else .skip⟩

/-- An idle path with the every-other read hook installed and a roomy queue. -/
def pathStateHookEx : PathState :=
  ⟨16, [], [⟨1, 0, fun _ => 1⟩], [hookEveryOther], 0, 0, 16, false, 0, 10⟩

/-! ### Path claims -/

/-- C1, counterexample.  The claim says the send routine runs in resend mode
*if and only if* no new samples have arrived since the previous send.  In
the source, `path_run_async` always calls `path_write(p, true)`: at
`pathStateEx` two samples have arrived that the destination (cursor 0,
which is where the previous send left it) has never sent, yet the tick
still resends (peeking at `received - vectorize`) and leaves the cursor at
0, while a tick implementing the spec's words (`path_run_async_tick_spec`,
previous-send `received` = 0 ≠ 2 = current, hence `resend = false`) advances
the cursor to 1. -/
theorem c1_counterexample :
    pathStateEx.received = 2 ∧
    pathStateEx.dests.map Dest.sent = [0] ∧
    (path_run_async_tick pathStateEx 1).map (fun o => o.1.dests.map Dest.sent)
      = some [0] ∧
    (path_run_async_tick_spec pathStateEx 0 1).map
        (fun o => o.1.dests.map Dest.sent) = some [1] ∧
    ([0] : List Nat) ≠ [1] :=
  ⟨rfl, rfl, rfl, rfl, by decide⟩

/-- C1 as amended.  On a rate-driven path, every tick of the send thread
runs the send routine in resend mode — unconditionally, whether or not new
samples have arrived: it peeks the last `V_out` samples at
`in.received - V_out` without pulling, so every destination reader cursor
(and the whole destination list, and the queue stream) is identical before
and after every successful tick. -/
theorem c1_rate_tick_always_resends (p : PathState) (expir : Nat)
    (out : PathState × Nat) (h : path_run_async_tick p expir = some out) :
    out.1.dests = p.dests ∧ out.1.stream = p.stream := by
  unfold path_run_async_tick at h
  have h2 := path_run_async_emit_effects _ _ h
  constructor
  · have := h2.1
    split at this <;> exact this
  · have := h2.2.1
    split at this <;> exact this

theorem c1_rate_tick_always_resends_witness :
    path_run_async_tick pathStateEx 1
      = some ((path_run_async_tick pathStateEx 1).getD (pathStateEx, 0)) ∧
    ((path_run_async_tick pathStateEx 1).getD (pathStateEx, 0)).1.dests
      = pathStateEx.dests :=
  ⟨rfl, (c1_rate_tick_always_resends pathStateEx 1 _ rfl).1⟩

/-- C2, counterexample.  The claim says a tick reporting `k > 1` expirations
increases `overrun` by `k - 1`.  The source does `p->overrun += expir`: at
`pathStateEx` a tick with 3 expirations takes the counter from 0 to 3, not
to 2 = 3 - 1 (one batch is still emitted). -/
theorem c2_counterexample :
    (path_run_async_tick pathStateEx 3).map (fun o => (o.1.overrun, o.2))
      = some (3, 1) ∧
    pathStateEx.overrun + (3 - 1) = 2 ∧ (3 : Nat) ≠ 2 :=
  ⟨rfl, rfl, by decide⟩

/-- C2 as amended.  On every tick reporting `k > 1` expirations the overrun
counter increases by exactly `k` (the full expiration count, so over a run
it equals the sum of the expiration counts of the overrun ticks), and at
most one send batch is emitted — exactly one when the path has received
samples and the async hook chain does not suppress the send; never a
catch-up burst. -/
theorem c2_overrun_counts_full_expirations (p : PathState) (expir : Nat)
    (out : PathState × Nat) (hk : 1 < expir)
    (h : path_run_async_tick p expir = some out) :
    out.1.overrun = p.overrun + expir ∧ out.2 ≤ 1 ∧
    (p.received ≠ 0 → p.asyncRet = 0 → out.2 = 1) := by
  unfold path_run_async_tick at h
  rw [if_pos hk] at h
  have h2 := path_run_async_emit_effects _ _ h
  exact ⟨h2.2.2.1, h2.2.2.2.1, h2.2.2.2.2⟩

theorem c2_overrun_counts_full_expirations_witness :
    1 < 3 ∧
    path_run_async_tick pathStateEx 3
      = some ((path_run_async_tick pathStateEx 3).getD (pathStateEx, 0)) ∧
    ((path_run_async_tick pathStateEx 3).getD (pathStateEx, 0)).1.overrun
      = pathStateEx.overrun + 3 :=
  ⟨by decide, rfl,
   (c2_overrun_counts_full_expirations pathStateEx 3 _ (by decide) rfl).1⟩

/-- C3, counterexample.  The claim says a push into a full queue truncates
AND increments `skipped` by the shortfall.  At `pathStateFullQ` (queue of 2,
both slots pending for the destination) one freshly read sample is offered:
the push truncates to 0 — but `path_run` only warns; `skipped` stays 0,
where the claim demands `0 + (1 - 0) = 1`. -/
theorem c3_counterexample :
    (path_run_iter pathStateFullQ 0 [7]).map
        (fun o => (o.1.stream.length - pathStateFullQ.stream.length,
                   o.1.skipped)) = some (0, 0) ∧
    (hook_run_batch pathStateFullQ.hooks HOOK_READ [7]).length = 1 ∧
    pathStateFullQ.skipped + (1 - 0) = 1 ∧ (0 : Nat) ≠ 1 :=
  ⟨rfl, rfl, rfl, by decide⟩

/-- C3 as amended.  When the queue is (nearly) full the push truncates — the
stream grows by `min enqueue free` where `free` is the room left before the
writer would lap the slowest reader, which is strictly less than `enqueue`
on overflow — but the `skipped` counter is NOT incremented by the shortfall:
the source only logs a warning, and `skipped` grows exactly by the number of
samples the read hooks dropped. -/
theorem c3_overflow_truncates_without_skipped (p : PathState) (ready : Nat)
    (readSmps : List Nat) (out : PathState × Nat)
    (h : path_run_iter p ready readSmps = some out) :
    out.1.stream.length = p.stream.length +
      min (hook_run_batch p.hooks HOOK_READ readSmps).length
        (p.queueSize - (p.received - minReader p)) ∧
    out.1.skipped = p.skipped +
      (readSmps.length - (hook_run_batch p.hooks HOOK_READ readSmps).length) := by
  obtain ⟨h1, h2, _⟩ := path_run_iter_effects p ready readSmps out h
  refine ⟨?_, h1⟩
  rw [h2, List.length_append, List.length_take]
  omega

theorem c3_overflow_truncates_without_skipped_witness :
    path_run_iter pathStateFullQ 0 [7]
      = some ((path_run_iter pathStateFullQ 0 [7]).getD (pathStateFullQ, 0)) ∧
    ((path_run_iter pathStateFullQ 0 [7]).getD (pathStateFullQ, 0)).1.skipped
      = pathStateFullQ.skipped + (1 - 1) :=
  ⟨rfl, (c3_overflow_truncates_without_skipped pathStateFullQ 0 [7] _ rfl).2⟩

/-- C7 (confirmed).  After running the `HOOK_READ` chain on a batch of
`recv` samples of which `enqueue` survive, the path's `skipped` counter
increases by exactly `recv - enqueue`; and concretely, the every-other hook
on input `1..10` keeps `{1,3,5,7,9}` — the queue receives exactly that
sequence (which is what the destination then observes) and `skipped` grows
by 5. -/
theorem c7_read_hook_skip_accounting :
    (∀ (p : PathState) (ready : Nat) (readSmps : List Nat)
        (out : PathState × Nat),
      path_run_iter p ready readSmps = some out →
      out.1.skipped = p.skipped +
        (readSmps.length - (hook_run_batch p.hooks HOOK_READ readSmps).length)) ∧
    hook_run_batch [hookEveryOther] HOOK_READ [1, 2, 3, 4, 5, 6, 7, 8, 9, 10]
      = [1, 3, 5, 7, 9] ∧
    (path_run_iter pathStateHookEx 0 [1, 2, 3, 4, 5, 6, 7, 8, 9, 10]).map
        (fun o => (o.1.skipped, o.1.stream)) = some (5, [1, 3, 5, 7, 9]) := by
  refine ⟨fun p ready readSmps out h => (path_run_iter_effects p ready readSmps out h).1,
    by decide, by rfl⟩

theorem c7_read_hook_skip_accounting_witness :
    path_run_iter pathStateHookEx 0 [1, 2, 3, 4, 5, 6, 7, 8, 9, 10]
      = some ((path_run_iter pathStateHookEx 0
          [1, 2, 3, 4, 5, 6, 7, 8, 9, 10]).getD (pathStateHookEx, 0)) ∧
    ((path_run_iter pathStateHookEx 0
        [1, 2, 3, 4, 5, 6, 7, 8, 9, 10]).getD (pathStateHookEx, 0)).1.skipped
      = pathStateHookEx.skipped + (10 - 5) :=
  ⟨rfl, c7_read_hook_skip_accounting.1 pathStateHookEx 0
    [1, 2, 3, 4, 5, 6, 7, 8, 9, 10] _ rfl⟩

/-! ## Path configuration parsing
(source: `config_parse_path` in `src/unnamed/part_005`)

In this configuration parser a path has a single `in` and a single `out`
node.  `node_lookup_name` resolves a name against the node list; `cerror`
and `error` terminate the process (modelled as `none`).  Nodes are shared:
a parsed path stores which nodes it refers to (here: by name).  `list_add`
appends the new path to the path list. -/

/-- A parsed path: resolved source and destination node (by name). -/
structure PathC where
  pin : String
  pout : String
deriving DecidableEq

/-- The configuration keys `config_parse_path` reads: `in`/`out` (required —
`none` models a missing key), and the optional booleans with their defaults
already applied (`enabled = 1`, `reverse = 0` when absent). -/
structure PathCfgIn where
  inStr : Option String
  outStr : Option String
  enabled : Bool
  reverse : Bool

/-- `config_parse_path`: resolve both endpoints, and if enabled append the
path — followed, when `reverse` is set, by a second freshly allocated path
with `in`/`out` swapped (the source `memcpy`s the first path and swaps). -/
def config_parse_path (cfg : PathCfgIn) (paths : List PathC)
    (nodes : List String) : Option (List PathC) :=
  match cfg.inStr with
  | none => none
  | some a =>
    match cfg.outStr with
    | none => none
    | some b =>
      if ¬ nodes.contains a then none
      else if ¬ nodes.contains b then none
      else if cfg.enabled then
        let base := paths ++ [⟨a, b⟩]
        some (if cfg.reverse then base ++ [⟨b, a⟩] else base)
      else some paths

/-- C8 (confirmed).  Parsing an enabled `{in = A, out = B, reverse = true}`
path configuration appends exactly two paths to the list: `A→B` and then
`B→A`.  Each is its own list entry (the source allocates a second
`struct path` and `memcpy`s before swapping), so the two carry independent
state. -/
theorem c8_reverse_yields_two_paths (nodes : List String)
    (paths : List PathC) (a b : String)
    (ha : nodes.contains a = true) (hb : nodes.contains b = true) :
    config_parse_path ⟨some a, some b, true, true⟩ paths nodes
      = some (paths ++ [⟨a, b⟩, ⟨b, a⟩]) := by
  unfold config_parse_path
  simp [ha, hb]
  exact ⟨List.mem_of_elem_eq_true ha, List.mem_of_elem_eq_true hb⟩

theorem c8_reverse_yields_two_paths_witness :
    (["A", "B"] : List String).contains "A" = true ∧
    (["A", "B"] : List String).contains "B" = true ∧
    config_parse_path ⟨some "A", some "B", true, true⟩ [] ["A", "B"]
      = some [⟨"A", "B"⟩, ⟨"B", "A"⟩] :=
  ⟨by decide, by decide,
   c8_reverse_yields_two_paths ["A", "B"] [] "A" "B" (by decide) (by decide)⟩

/-! ## The generic doubly-linked list (source: `src/unnamed/part_000`)

`list_push` and `list_insert` manipulate heap pointers; the model is an
arena: elements live at indices of `arena` (allocation appends), and `next`/
`prev`/`head`/`tail` are optional indices.  `alloc` in the source zeroes the
element, so unset fields start as `0`/`NULL`. -/

structure Elm where
  ptr : Nat
  priority : Int
  next : Option Nat
  prev : Option Nat
deriving DecidableEq

structure LList where
  arena : List Elm
  head : Option Nat
  tail : Option Nat
  length : Nat
deriving DecidableEq

def LList.empty : LList := ⟨[], none, none, 0⟩

def elmDefault : Elm := ⟨0, 0, none, none⟩

def getElm (l : LList) (i : Nat) : Elm := l.arena.getD i elmDefault

def setNext (l : LList) (i : Nat) (v : Option Nat) : LList :=
  { l with arena := l.arena.set i { getElm l i with next := v } }

def setPrev (l : LList) (i : Nat) (v : Option Nat) : LList :=
  { l with arena := l.arena.set i { getElm l i with prev := v } }

/-- `list_push`, statement by statement: allocate `e`, set `e->prev` to the
old tail and `e->next` to null; if there is a tail, point its `next` at `e`;
if there is a head, set the HEAD's `prev` to `e` (sic — this is what the
source does), otherwise make `e` the head; finally `e` becomes the tail. -/
def list_push (l : LList) (p : Nat) : LList :=
  let i := l.arena.length
  let e : Elm := ⟨p, 0, none, l.tail⟩
  let l1 := { l with arena := l.arena ++ [e] }
  let l2 := match l1.tail with
    | some t => setNext l1 t (some i)
    | none => l1
  let l3 := match l2.head with
    | some h => setPrev l2 h (some i)
    | none => { l2 with head := some i }
  { l3 with tail := some i, length := l3.length + 1 }

/-- The search loop of `list_insert`: first element (from `head` along
`next`) whose priority is not less than `prio`.  The fuel bounds the pointer
chase (the C loop would not terminate on a cyclic `next` chain). -/
def findGE (l : LList) (prio : Int) : Nat → Option Nat → Option Nat
  | 0, cur => cur
  | _ + 1, none => none
  | fuel + 1, some d =>
    if (getElm l d).priority < prio then findGE l prio fuel (getElm l d).next
    else some d

/-- `list_insert`, statement by statement: allocate `e` with the given
priority, find the first element `d` with priority ≥ `prio`, set
`e->next = d`; if `d` exists, `e->prev = d->prev` and either the head moves
to `e` (when `d` was the head — `d->prev` is NOT updated) or `d->prev = e`
(the old predecessor's `next` is NOT updated); otherwise `e` is appended at
the tail. -/
def list_insert (l : LList) (prio : Int) (p : Nat) : LList :=
  let i := l.arena.length
  let e : Elm := ⟨p, prio, none, none⟩
  let l1 := { l with arena := l.arena ++ [e] }
  let d := findGE l1 prio (l1.arena.length + 1) l1.head
  let l2 := setNext l1 i d
  match d with
  | some di =>
    let l3 := setPrev l2 i (getElm l2 di).prev
    let l4 := if l3.head = some di then { l3 with head := some i }
              else setPrev l3 di (some i)
    { l4 with length := l4.length + 1 }
  | none =>
    let l3 := setPrev l2 i l2.tail
    let l4 :=
      if l3.length = 0 then { l3 with head := some i }
      else match l3.tail with
        | some t => setNext l3 t (some i)
        | none => l3
    { l4 with tail := some i, length := l4.length + 1 }

/-- Forward traversal from the head along `next`, collecting payloads
(`FOREACH`); fuel-bounded. -/
def traverseFwd (l : LList) : Nat → Option Nat → List Nat
  | 0, _ => []
  | _ + 1, none => []
  | fuel + 1, some i => (getElm l i).ptr :: traverseFwd l fuel (getElm l i).next

def LList.contents (l : LList) : List Nat :=
  traverseFwd l (l.arena.length + 1) l.head

/-- The doubly-linked well-formedness invariant of the claim: the head has
no predecessor, the tail has no successor, and every element's successor
points back at it. -/
def LList.wellFormed (l : LList) : Prop :=
  (∀ h, l.head = some h → (getElm l h).prev = none) ∧
  (∀ t, l.tail = some t → (getElm l t).next = none) ∧
  (∀ i, i < l.arena.length → ∀ j, (getElm l i).next = some j →
    (getElm l j).prev = some i)

/-- C9 (code bug).  Pushing `1` then `2` onto an empty list: the length and
forward traversal are right, but `list_push` rewires the HEAD's `prev` to
the new tail (`l->head->prev = e`), so the invariant "head's prev is null"
breaks as soon as the list has two elements.  And inserting with priorities
10, 30, then 20: the third element belongs between the other two, but
`list_insert` never updates the predecessor's `next`, so the forward
traversal silently skips it (`[10, 30]` with length 3). -/
theorem c9_push_insert_break_invariants :
    (let l2 := list_push (list_push LList.empty 1) 2
     l2.length = 2 ∧ l2.contents = [1, 2] ∧
     l2.head = some 0 ∧ (getElm l2 0).prev = some 1) ∧
    (let l3 := list_insert (list_insert (list_insert LList.empty 1 10) 3 30) 2 20
     l3.length = 3 ∧ l3.contents = [10, 30]) := by
  exact ⟨⟨rfl, rfl, rfl, rfl⟩, ⟨rfl, rfl⟩⟩

/-! ## Sample remapping (source: `mapping_update` in `src/unnamed/part_005`)

`struct mapping_entry` (declared in `mapping.h`, which is not part of the
source tree) carries a type tag, a target `length`/`offset`, and a union of
per-type members (`stats`/`hdr`/`ts`/`data`).  All union members start at
offset 0, so their leading `int` fields alias: the model stores the union as
two words `u0`/`u1`, with `stats.id = ts.id = hdr.id = data.offset = u0` and
`stats.type = u1`.  Enum values (from the missing headers, in declaration
order): `MAPPING_TS_ORIGIN = 0`, `MAPPING_TS_RECEIVED = 1`; the stats types
`TOTAL, LAST, LOWEST, HIGHEST, MEAN, VAR, STDDEV = 0..6`;
`SAMPLE_DATA_FORMAT_INT = 0`, `SAMPLE_DATA_FORMAT_FLOAT = 1`.  Sample
values are a union written through `.i` or `.f`; histogram statistics are
abstract integers. -/

/-- A sample value slot's content, tagged by which union member wrote it. -/
inductive Val where
  | vi (x : Int)
  | vf (x : Int)
deriving DecidableEq

/-- One slot of a sample's value array: its data-format bit and its value. -/
structure Slot where
  fmt : Nat
  val : Val
deriving DecidableEq

def SAMPLE_DATA_FORMAT_INT : Nat := 0
def SAMPLE_DATA_FORMAT_FLOAT : Nat := 1

/-- The sample fields `mapping_update` touches. -/
structure Smp where
  length : Nat
  capacity : Nat
  data : List Slot
  sequence : Int
  id : Int
  format : Int
  tsOriginSec : Int
  tsOriginNsec : Int
  tsReceivedSec : Int
  tsReceivedNsec : Int
deriving DecidableEq

def slotDefault : Slot := ⟨0, .vi 0⟩

/-- `sample_set_data_format(smp, idx, fmt)`. -/
def setFmt (s : Smp) (i : Nat) (f : Nat) : Smp :=
  { s with data := s.data.set i { s.data.getD i slotDefault with fmt := f } }

/-- `smp->data[idx] = v` through one union member. -/
def setVal (s : Smp) (i : Nat) (v : Val) : Smp :=
  { s with data := s.data.set i { s.data.getD i slotDefault with val := v } }

inductive MType where
  | stats
  | hdr
  | ts
  | data
deriving DecidableEq

/-- `struct mapping_entry` (see the section comment for the union model). -/
structure MappingEntry where
  mtype : MType
  length : Nat
  offset : Nat
  u0 : Int
  u1 : Int

def MAPPING_TS_ORIGIN : Int := 0
def MAPPING_TS_RECEIVED : Int := 1

/-- A histogram: the fields `mapping_update` reads (`hist_mean` etc. are
oracle values). -/
structure Hist where
  total : Int
  last : Int
  highest : Int
  lowest : Int
  meanV : Int
  varV : Int
  stddevV : Int

structure Stats where
  histograms : List Hist

def histDefault : Hist := ⟨0, 0, 0, 0, 0, 0, 0⟩

/-- The `MAPPING_TYPE_TS` case body of `mapping_update` (also reached by
fall-through from the stats case): pick the timestamp by `me->ts.id`
(aliasing `u0`), set both format bits to INT and write seconds and
nanoseconds at `off` and `off + 1`. -/
def mapping_update_ts (me : MappingEntry) (r : Smp) (original : Smp)
    (off : Nat) : Option Smp :=
  if me.u0 = MAPPING_TS_RECEIVED then
    let r1 := setFmt (setFmt r off SAMPLE_DATA_FORMAT_INT) (off + 1)
      SAMPLE_DATA_FORMAT_INT
    some (setVal (setVal r1 off (.vi original.tsReceivedSec)) (off + 1)
      (.vi original.tsReceivedNsec))
  else if me.u0 = MAPPING_TS_ORIGIN then
    let r1 := setFmt (setFmt r off SAMPLE_DATA_FORMAT_INT) (off + 1)
      SAMPLE_DATA_FORMAT_INT
    some (setVal (setVal r1 off (.vi original.tsOriginSec)) (off + 1)
      (.vi original.tsOriginNsec))
  else none

/-- The `MAPPING_TYPE_DATA` loop of `mapping_update`. -/
def mapping_update_data (original : Smp) : Nat → Nat → Nat → Smp → Smp
  | _, _, 0, r => r
  | j, off, k + 1, r =>
    let r2 :=
      if j ≥ original.length then
        setVal (setFmt r off SAMPLE_DATA_FORMAT_FLOAT) off (.vf 0)
      else
        setVal (setFmt r off (original.data.getD j slotDefault).fmt) off
          (original.data.getD j slotDefault).val
    mapping_update_data original (j + 1) (off + 1) k r2

/-- `mapping_update`.  Faithful to the source: the `MAPPING_TYPE_STATS` case
has NO `break` and falls through into the `MAPPING_TYPE_TS` case with `off`
already advanced past the stats value. -/
def mapping_update (me : MappingEntry) (remapped : Smp) (original : Smp)
    (s : Stats) : Option Smp :=
  let len := if me.length = 0 then original.length else me.length
  let off := me.offset
  if len + off > remapped.capacity then none
  else
    let r0 := if len + off > remapped.length then { remapped with length := len + off }
              else remapped
    match me.mtype with
    | .stats =>
      let h := s.histograms.getD me.u0.toNat histDefault
      match
        (if me.u1 = 0 then some (setVal (setFmt r0 off SAMPLE_DATA_FORMAT_INT) off (.vf h.total))
         else if me.u1 = 1 then some (setVal r0 off (.vf h.last))
         else if me.u1 = 3 then some (setVal r0 off (.vf h.highest))
         else if me.u1 = 2 then some (setVal r0 off (.vf h.lowest))
         else if me.u1 = 4 then some (setVal r0 off (.vf h.meanV))
         else if me.u1 = 6 then some (setVal r0 off (.vf h.stddevV))
         else if me.u1 = 5 then some (setVal r0 off (.vf h.varV))
         else none) with
      | none => none
      | some r1 => mapping_update_ts me r1 original (off + 1)
    | .ts => mapping_update_ts me r0 original off
    | .hdr =>
      let r1 := setFmt r0 off SAMPLE_DATA_FORMAT_INT
      if me.u0 = 1 then some (setVal r1 off (.vi original.length))
      else if me.u0 = 0 then some (setVal r1 off (.vi original.sequence))
      else if me.u0 = 2 then some (setVal r1 off (.vi original.id))
      else if me.u0 = 3 then some (setVal r1 off (.vi original.format))
      else none
    | .data => some (mapping_update_data original me.u0.toNat off len r0)

/-- The C10 failing input: a stats entry of length 1 at offset 0 whose
`stats.id` is 1 (aliasing `ts.id = MAPPING_TS_RECEIVED`) and whose
`stats.type` is LAST. -/
def meStatsEx : MappingEntry := ⟨.stats, 1, 0, 1, 1⟩

/-- A three-slot target sample, every slot `{fmt = FLOAT, val = .vi 7}`. -/
def smpTargetEx : Smp :=
  ⟨0, 3, [⟨1, .vi 7⟩, ⟨1, .vi 7⟩, ⟨1, .vi 7⟩], 0, 0, 0, 0, 0, 0, 0⟩

/-- The source sample: received timestamp 11s / 22ns. -/
def smpOriginalEx : Smp := ⟨1, 3, [⟨0, .vi 5⟩], 3, 0, 0, 9, 9, 11, 22⟩

def statsEx : Stats := ⟨[histDefault, ⟨0, 99, 0, 0, 0, 0, 0⟩]⟩

/-- C10 (code bug).  The claim says a successful stats-mapping update (entry
length 1) writes exactly one value at the entry's offset and leaves every
other slot and their format bits unchanged.  The `MAPPING_TYPE_STATS` case
of `mapping_update` is missing its `break`: after writing the stats value at
offset 0 it falls through into the timestamp case, which (reading `ts.id`
through the union, aliased to `stats.id = 1 = MAPPING_TS_RECEIVED`) also
sets the format bits of slots 1 and 2 to INT and overwrites them with the
received timestamp — and the call still reports success. -/
theorem c10_stats_update_falls_through_to_ts :
    mapping_update meStatsEx smpTargetEx smpOriginalEx statsEx
      = some ⟨1, 3, [⟨1, .vf 99⟩, ⟨0, .vi 11⟩, ⟨0, .vi 22⟩],
              0, 0, 0, 0, 0, 0, 0⟩ ∧
    smpTargetEx.data.getD 1 slotDefault = ⟨1, .vi 7⟩ ∧
    (⟨0, .vi 11⟩ : Slot) ≠ ⟨1, .vi 7⟩ ∧
    (⟨0, .vi 22⟩ : Slot) ≠ ⟨1, .vi 7⟩ := by
  exact ⟨rfl, rfl, by decide, by decide⟩

end VillasNode
